import Mathlib

/-!
Verification development for the EX-Installer renderer core.

The definitions below are shallow embeddings of the TypeScript sources under
`src/renderer/src` (models/product-details.ts, views/workspace.ts,
views/ioexpander-config.ts, views/turntable-config.ts,
components/device-wizard.ts).  Stateful methods become explicit
state-passing functions; external collaborator calls (arduino-cli, git,
filesystem) are passed in as explicit outcome parameters and are recorded
in traces.  JavaScript numbers that only ever hold small integers are
modelled as `Nat`/`Int`; JavaScript `null`/`undefined` becomes `Option`.
-/

namespace EXInstaller

/-! ## product-details.ts : version tags -/

/-- The `type` component of `extractVersionDetails` in
`models/product-details.ts`: `'Prod' | 'Devel' | 'unknown'`. -/
inductive VersionType where
  | Prod
  | Devel
  | unknown
deriving DecidableEq, Repr

/-- Return type of `extractVersionDetails`. -/
structure VersionDetails where
  major : Nat
  minor : Nat
  patch : Nat
  type : VersionType
deriving DecidableEq, Repr

/-- Boolean test that the list `p` is an initial segment of `l`
(the regex engine testing a literal alternative at a position). -/
def hasPref : List Char → List Char → Bool
  | [], _ => true
  | _ :: _, [] => false
  | p :: ps, c :: cs => p == c && hasPref ps cs

/-- Greedy span of decimal digits, as matched by `(\d+)`. -/
def spanDigits : List Char → List Char × List Char
  | [] => ([], [])
  | c :: cs =>
    if c.isDigit then
      let r := spanDigits cs
      (c :: r.1, r.2)
    else ([], c :: cs)

/-- `parseInt(_, 10)` on a digit string, as a left Horner fold. -/
def decimalVal (ds : List Char) : Nat :=
  ds.foldl (fun a c => 10 * a + (c.toNat - 48)) 0

/-- The match of `/^v(\d+)\.(\d+)\.(\d+)(?:-(Prod|Devel))?/` against a
character list: `some (major, minor, patch, type)` on success. -/
def parseTag (cs : List Char) : Option (Nat × Nat × Nat × VersionType) :=
  match cs with
  | [] => none
  | c0 :: rest =>
    if c0 = 'v' then
      let s1 := spanDigits rest
      if s1.1 = [] then none
      else
        match s1.2 with
        | [] => none
        | c1 :: r2 =>
          if c1 = '.' then
            let s2 := spanDigits r2
            if s2.1 = [] then none
            else
              match s2.2 with
              | [] => none
              | c2 :: r4 =>
                if c2 = '.' then
                  let s3 := spanDigits r4
                  if s3.1 = [] then none
                  else
                    some (decimalVal s1.1, decimalVal s2.1, decimalVal s3.1,
                      if hasPref "-Prod".data s3.2 then VersionType.Prod
                      else if hasPref "-Devel".data s3.2 then VersionType.Devel
                      else VersionType.unknown)
                else none
          else none
    else none

/-- `extractVersionDetails` from `models/product-details.ts`: a failed
regex match yields `{major: 0, minor: 0, patch: 0, type: 'unknown'}`,
an absent suffix group yields type `'unknown'`. -/
def extractVersionDetails (tag : String) : VersionDetails :=
  match parseTag tag.data with
  | some (M, m, p, t) => ⟨M, m, p, t⟩
  | none => ⟨0, 0, 0, VersionType.unknown⟩

/-- The sort comparator used on tag lists in `DeviceWizard.loadVersions`
(components/device-wizard.ts) and `SelectVersion.setupRepo`: descending by
major, then minor, then patch. -/
def versionCompare (a b : String) : Int :=
  let va := extractVersionDetails a
  let vb := extractVersionDetails b
  if va.major ≠ vb.major then (vb.major : Int) - (va.major : Int)
  else if va.minor ≠ vb.minor then (vb.minor : Int) - (va.minor : Int)
  else (vb.patch : Int) - (va.patch : Int)

/-- `tags.sort(comparator)` modelled as a merge sort with the comparator
reading "a may come before b". -/
def sortVersions (tags : List String) : List String :=
  tags.mergeSort (fun a b => versionCompare a b ≤ 0)

/-- `DeviceWizard.loadVersions` default selection:
`versions.find(t => extract(t).type === 'Prod') ?? versions[0] ?? null`. -/
def selectDefaultVersion (versions : List String) : Option String :=
  match versions.find? (fun t => (extractVersionDetails t).type == VersionType.Prod) with
  | some t => some t
  | none => versions.head?

/-- Descending lexicographic order on (major, minor, patch): the ordering
the spec calls "descending by (major, minor, patch)". -/
def versionGe (a b : String) : Prop :=
  let va := extractVersionDetails a
  let vb := extractVersionDetails b
  vb.major < va.major ∨
    (vb.major = va.major ∧
      (vb.minor < va.minor ∨ (vb.minor = va.minor ∧ vb.patch ≤ va.patch)))

example : extractVersionDetails "v5.0.7-Prod" = ⟨5, 0, 7, VersionType.Prod⟩ := by decide
example : extractVersionDetails "v5.2.80-Devel" = ⟨5, 2, 80, VersionType.Devel⟩ := by decide
example : extractVersionDetails "v10.11.12" = ⟨10, 11, 12, VersionType.unknown⟩ := by decide
example : extractVersionDetails "5.0.7" = ⟨0, 0, 0, VersionType.unknown⟩ := by decide
example : extractVersionDetails "v5.0.7-rc1" = ⟨5, 0, 7, VersionType.unknown⟩ := by decide

lemma spanDigits_append (d r : List Char) (hd : ∀ c ∈ d, c.isDigit = true)
    (hr : ∀ c : Char, r.head? = some c → c.isDigit = false) :
    spanDigits (d ++ r) = (d, r) := by
  induction d with
  | nil =>
    simp only [List.nil_append]
    match r with
    | [] => rfl
    | c :: cs =>
      have hc : c.isDigit = false := hr c rfl
      simp [spanDigits, hc]
  | cons c cs ih =>
    have hc : c.isDigit = true := hd c (List.mem_cons_self ..)
    have ih' := ih (fun x hx => hd x (List.mem_cons_of_mem _ hx))
    simp [spanDigits, hc, ih']

lemma decimalVal_from (ds : List Char) : ∀ a : Nat,
    ds.foldl (fun a c => 10 * a + (c.toNat - 48)) a
      = a * 10 ^ ds.length + Nat.ofDigits 10 ((ds.map fun c => c.toNat - 48).reverse) := by
  induction ds with
  | nil => intro a; simp [Nat.ofDigits]
  | cons c cs ih =>
    intro a
    simp only [List.foldl_cons, List.map_cons, List.reverse_cons, List.length_cons]
    rw [ih, Nat.ofDigits_append]
    simp only [List.length_reverse, List.length_map, Nat.ofDigits_singleton]
    ring

lemma extract_wellFormed (d1 d2 d3 rest : List Char)
    (h1 : d1 ≠ []) (h2 : d2 ≠ []) (h3 : d3 ≠ [])
    (hd1 : ∀ c ∈ d1, c.isDigit = true) (hd2 : ∀ c ∈ d2, c.isDigit = true)
    (hd3 : ∀ c ∈ d3, c.isDigit = true)
    (hrest : ∀ c : Char, rest.head? = some c → c.isDigit = false) :
    extractVersionDetails ⟨'v' :: (d1 ++ '.' :: (d2 ++ '.' :: (d3 ++ rest)))⟩ =
      ⟨decimalVal d1, decimalVal d2, decimalVal d3,
       if hasPref "-Prod".data rest then VersionType.Prod
       else if hasPref "-Devel".data rest then VersionType.Devel
       else VersionType.unknown⟩ := by
  have hdot : ∀ (x : List Char) (c : Char), ('.' :: x).head? = some c → c.isDigit = false := by
    intro x c hc
    cases hc
    decide
  have e1 : spanDigits (d1 ++ '.' :: (d2 ++ '.' :: (d3 ++ rest)))
      = (d1, '.' :: (d2 ++ '.' :: (d3 ++ rest))) :=
    spanDigits_append _ _ hd1 (hdot _)
  have e2 : spanDigits (d2 ++ '.' :: (d3 ++ rest)) = (d2, '.' :: (d3 ++ rest)) :=
    spanDigits_append _ _ hd2 (hdot _)
  have e3 : spanDigits (d3 ++ rest) = (d3, rest) :=
    spanDigits_append _ _ hd3 hrest
  unfold extractVersionDetails
  show (match parseTag ('v' :: (d1 ++ '.' :: (d2 ++ '.' :: (d3 ++ rest)))) with
    | some (M, m, p, t) => (⟨M, m, p, t⟩ : VersionDetails)
    | none => ⟨0, 0, 0, VersionType.unknown⟩) = _
  unfold parseTag
  simp only [if_pos rfl, e1, e2, e3, if_neg h1, if_neg h2, if_neg h3]
  simp

/-- Transitivity of the descending (major, minor, patch) order. -/
lemma versionGe_trans (a b c : String) (hab : versionGe a b) (hbc : versionGe b c) :
    versionGe a c := by
  rcases ha : extractVersionDetails a with ⟨Ma, ma, pa, ta⟩
  rcases hb : extractVersionDetails b with ⟨Mb, mb, pb, tb⟩
  rcases hc : extractVersionDetails c with ⟨Mc, mc, pc, tc⟩
  simp only [versionGe, ha, hb, hc] at hab hbc ⊢
  omega

/-- The JavaScript comparator is non-positive exactly when `a` may precede
`b` in the descending (major, minor, patch) order. -/
lemma versionCompare_nonpos_iff (a b : String) :
    versionCompare a b ≤ 0 ↔ versionGe a b := by
  rcases ha : extractVersionDetails a with ⟨Ma, ma, pa, ta⟩
  rcases hb : extractVersionDetails b with ⟨Mb, mb, pb, tb⟩
  simp only [versionCompare, versionGe, ha, hb]
  split_ifs <;> omega

lemma sortVersions_pairwise (tags : List String) :
    (sortVersions tags).Pairwise versionGe := by
  have htrans : ∀ a b c : String,
      decide (versionCompare a b ≤ 0) = true → decide (versionCompare b c ≤ 0) = true →
      decide (versionCompare a c ≤ 0) = true := by
    intro a b c h1 h2
    rw [decide_eq_true_iff] at h1 h2 ⊢
    rw [versionCompare_nonpos_iff] at h1 h2 ⊢
    exact versionGe_trans a b c h1 h2
  have htotal : ∀ a b : String,
      (decide (versionCompare a b ≤ 0) || decide (versionCompare b a ≤ 0)) = true := by
    intro a b
    rcases ha : extractVersionDetails a with ⟨Ma, ma, pa, ta⟩
    rcases hb : extractVersionDetails b with ⟨Mb, mb, pb, tb⟩
    rw [Bool.or_eq_true, decide_eq_true_iff, decide_eq_true_iff]
    simp only [versionCompare, ha, hb]
    split_ifs <;> omega
  have h := @List.sorted_mergeSort String
    (fun a b => decide (versionCompare a b ≤ 0)) htrans htotal tags
  refine (List.Pairwise.imp ?_ h)
  intro a b hab
  rw [decide_eq_true_iff] at hab
  exact (versionCompare_nonpos_iff a b).1 hab

/-- C6.  `extractVersionDetails` maps every tag of the form
`v<major>.<minor>.<patch>` with optional `-Prod`/`-Devel` suffix to its
numeric components (any other suffix classifies as `unknown`); `decimalVal`
is genuine decimal reading; the sorted version list is descending by
(major, minor, patch) and a permutation of the input; and the default
selection is the first `Prod` tag in that order, falling back to the head
of the sorted (= newest) list when no `Prod` tag exists. -/
theorem c6_version_tag_model :
    (∀ d1 d2 d3 rest : List Char, d1 ≠ [] → d2 ≠ [] → d3 ≠ [] →
      (∀ c ∈ d1, c.isDigit = true) → (∀ c ∈ d2, c.isDigit = true) →
      (∀ c ∈ d3, c.isDigit = true) →
      (∀ c : Char, rest.head? = some c → c.isDigit = false) →
      extractVersionDetails ⟨'v' :: (d1 ++ '.' :: (d2 ++ '.' :: (d3 ++ rest)))⟩ =
        ⟨decimalVal d1, decimalVal d2, decimalVal d3,
         if hasPref "-Prod".data rest then VersionType.Prod
         else if hasPref "-Devel".data rest then VersionType.Devel
         else VersionType.unknown⟩) ∧
    (∀ ds : List Char,
      decimalVal ds = Nat.ofDigits 10 ((ds.map fun c => c.toNat - 48).reverse)) ∧
    (∀ tags : List String, (sortVersions tags).Pairwise versionGe) ∧
    (∀ tags : List String, (sortVersions tags).Perm tags) ∧
    (∀ (l : List String) (t : String),
      l.find? (fun t => (extractVersionDetails t).type == VersionType.Prod) = some t →
      selectDefaultVersion l = some t) ∧
    (∀ l : List String,
      (∀ t ∈ l, (extractVersionDetails t).type ≠ VersionType.Prod) →
      selectDefaultVersion l = l.head?) := by
  refine ⟨extract_wellFormed, ?_, sortVersions_pairwise, ?_, ?_, ?_⟩
  · intro ds
    simpa [decimalVal] using decimalVal_from ds 0
  · intro tags
    exact List.mergeSort_perm tags _
  · intro l t hfind
    simp [selectDefaultVersion, hfind]
  · intro l hnone
    have : l.find? (fun t => (extractVersionDetails t).type == VersionType.Prod) = none := by
      rw [List.find?_eq_none]
      intro t ht
      simpa using hnone t ht
    simp [selectDefaultVersion, this]

/-- Witness for C6 at concrete inputs. -/
theorem c6_version_tag_model_witness :
    extractVersionDetails ⟨'v' :: (['5'] ++ '.' :: (['0'] ++ '.' :: (['7'] ++ "-Prod".data)))⟩ =
      ⟨5, 0, 7, VersionType.Prod⟩ ∧
    selectDefaultVersion ["v5.2.80-Devel", "v5.0.7-Prod"] = some "v5.0.7-Prod" := by
  constructor
  · have h := c6_version_tag_model.1 ['5'] ['0'] ['7'] "-Prod".data
      (by decide) (by decide) (by decide) (by decide) (by decide) (by decide) (by decide)
    rw [h]
    decide
  · exact c6_version_tag_model.2.2.2.2.1 ["v5.2.80-Devel", "v5.0.7-Prod"] "v5.0.7-Prod"
      (by decide)

/-! ## Shared data model -/

/-- A config file entry `{name, content}` (models/installer-state.ts,
models/saved-configuration.ts). -/
structure ConfigFile where
  name : String
  content : String
deriving DecidableEq, Repr

/-! ## views/ioexpander-config.ts -/

/-- The fields of the `IoexpanderConfig` view relevant to its behaviour,
plus the `state.configFiles` it writes. -/
structure IoexpanderState where
  i2cAddress : Int
  disableI2cPullups : Bool
  diagAnalogue : Bool
  diagInput : Bool
  diagOutput : Bool
  diagPullup : Bool
  error : Option String
  configFiles : List ConfigFile

/-- Options record passed to `generateIOExpanderConfig`. -/
structure IOExpanderOptions where
  i2cAddress : Int
  disablePullups : Bool
  testMode : Option String

def IoexpanderConfig.decrementAddress (s : IoexpanderState) : IoexpanderState :=
  if s.i2cAddress > 0x08 then { s with i2cAddress := s.i2cAddress - 1 } else s

def IoexpanderConfig.incrementAddress (s : IoexpanderState) : IoexpanderState :=
  if s.i2cAddress < 0x77 then { s with i2cAddress := s.i2cAddress + 1 } else s

/-- The test-mode selection chain at the top of `IoexpanderConfig.goNext`. -/
def ioexpanderTestMode (s : IoexpanderState) : Option String :=
  if s.diagAnalogue then some "ANALOGUE_TEST"
  else if s.diagInput then some "INPUT_TEST"
  else if s.diagOutput then some "OUTPUT_TEST"
  else if s.diagPullup then some "PULLUP_TEST"
  else none

/-- `IoexpanderConfig.goNext`.  The config-text generator
`generateIOExpanderConfig` (src/renderer/src/config/ioexpander.ts) is not
part of the corpus, so it is passed in as the parameter `gen`; the guard
under verification never reaches it. -/
def IoexpanderConfig.goNext (gen : IOExpanderOptions → String)
    (s : IoexpanderState) : IoexpanderState :=
  if s.i2cAddress < 0x08 ∨ s.i2cAddress > 0x77 then
    { s with error := some "I²C address must be between 0x08 and 0x77" }
  else
    { s with error := none,
             configFiles :=
               [⟨"myConfig.h", gen ⟨s.i2cAddress, s.disableI2cPullups, ioexpanderTestMode s⟩⟩] }

/-! ## views/turntable-config.ts -/

inductive TurntableMode where
  | TURNTABLE
  | TRAVERSER
deriving DecidableEq, Repr

inductive PhaseSwitching where
  | AUTO
  | MANUAL
deriving DecidableEq, Repr

inductive ActiveState where
  | LOW
  | HIGH
deriving DecidableEq, Repr

/-- The fields of the `TurntableConfig` view relevant to `goNext`, plus the
installer-state fields it writes. -/
structure TurntableState where
  i2cAddress : Int
  mode : TurntableMode
  phaseSwitching : PhaseSwitching
  phaseSwitchAngle : Int
  homeSensorActiveState : ActiveState
  limitSensorActiveState : ActiveState
  relayActiveState : ActiveState
  sensorTesting : Bool
  stepperDriver : String
  maxSpeed : Int
  acceleration : Int
  gearingFactor : Int
  disableOutputsIdle : Bool
  invertDirection : Bool
  invertStep : Bool
  invertEnable : Bool
  forwardOnly : Bool
  reverseOnly : Bool
  enableDebug : Bool
  ledFast : Int
  ledSlow : Int
  sanitySteps : Option Int
  homeSensitivity : Option Int
  fullStepCount : Option Int
  debounceDelay : Option Int
  enableAdvancedConfig : Bool
  error : Option String
  configFiles : List ConfigFile
  advancedConfig : Bool

/-- Options record passed to `generateTurntableConfig`. -/
structure TurntableOptions where
  i2cAddress : Int
  mode : TurntableMode
  sensorTesting : Bool
  homeSensorActiveState : ActiveState
  limitSensorActiveState : ActiveState
  relayActiveState : ActiveState
  phaseSwitching : PhaseSwitching
  phaseSwitchAngle : Int
  stepperDriver : String
  disableOutputsIdle : Bool
  maxSpeed : Int
  acceleration : Int
  gearingFactor : Int
  invertDirection : Bool
  invertStep : Bool
  invertEnable : Bool
  forwardOnly : Bool
  reverseOnly : Bool
  ledFast : Int
  ledSlow : Int
  enableDebug : Bool
  sanitySteps : Option Int
  homeSensitivity : Option Int
  fullStepCount : Option Int
  debounceDelay : Option Int

def TurntableConfig.decrementAddress (s : TurntableState) : TurntableState :=
  if s.i2cAddress > 0x08 then { s with i2cAddress := s.i2cAddress - 1 } else s

def TurntableConfig.incrementAddress (s : TurntableState) : TurntableState :=
  if s.i2cAddress < 0x77 then { s with i2cAddress := s.i2cAddress + 1 } else s

/-- The validation-error list built at the top of `TurntableConfig.goNext`,
in source order. -/
def TurntableConfig.validationErrors (s : TurntableState) : List String :=
  (if s.i2cAddress < 0x08 ∨ s.i2cAddress > 0x77 then
    ["I²C address must be between 0x08 and 0x77"] else []) ++
  (if s.stepperDriver = "" then ["You must select a stepper driver"] else []) ++
  (if s.maxSpeed < 10 ∨ s.maxSpeed > 20000 then
    ["Speed must be between 10 and 20000"] else []) ++
  (if s.acceleration < 1 ∨ s.acceleration > 1000 then
    ["Acceleration must be between 1 and 1000"] else []) ++
  (if s.gearingFactor < 1 ∨ s.gearingFactor > 10 then
    ["Gearing factor must be between 1 and 10"] else []) ++
  (if s.phaseSwitching = PhaseSwitching.AUTO ∧
      (s.phaseSwitchAngle < 0 ∨ s.phaseSwitchAngle > 180) then
    ["Phase switch angle must be between 0 and 180"] else []) ++
  (if s.forwardOnly = true ∧ s.mode = TurntableMode.TRAVERSER then
    ["Traverser mode is incompatible with forward only rotation"] else []) ++
  (if s.reverseOnly = true ∧ s.mode = TurntableMode.TRAVERSER then
    ["Traverser mode is incompatible with reverse only rotation"] else [])

/-- The options record `TurntableConfig.goNext` builds from its fields. -/
def TurntableConfig.options (s : TurntableState) : TurntableOptions :=
  ⟨s.i2cAddress, s.mode, s.sensorTesting, s.homeSensorActiveState,
   s.limitSensorActiveState, s.relayActiveState, s.phaseSwitching,
   s.phaseSwitchAngle, s.stepperDriver, s.disableOutputsIdle, s.maxSpeed,
   s.acceleration, s.gearingFactor, s.invertDirection, s.invertStep,
   s.invertEnable, s.forwardOnly, s.reverseOnly, s.ledFast, s.ledSlow,
   s.enableDebug, s.sanitySteps, s.homeSensitivity, s.fullStepCount,
   s.debounceDelay⟩

/-- `TurntableConfig.goNext`.  `generateTurntableConfig`
(src/renderer/src/config/turntable.ts) is not part of the corpus and is
passed in as `gen`; the guard under verification never reaches it. -/
def TurntableConfig.goNext (gen : TurntableOptions → String)
    (s : TurntableState) : TurntableState :=
  let errors := TurntableConfig.validationErrors s
  if errors ≠ [] then
    { s with error := some (String.intercalate ", " errors) }
  else
    { s with error := none,
             configFiles := [⟨"config.h", gen (TurntableConfig.options s)⟩],
             advancedConfig := s.enableAdvancedConfig }

/-- C10.  In both the I/O-expander and turntable views the I2C address
stays within [0x08, 0x77] under increment/decrement (no-ops at the
bounds), and `goNext` with an out-of-range address sets an error and
leaves `state.configFiles` unchanged. -/
theorem c10_i2c_address_invariants :
    (∀ s : IoexpanderState, 8 ≤ s.i2cAddress → s.i2cAddress ≤ 0x77 →
      (8 ≤ (IoexpanderConfig.incrementAddress s).i2cAddress ∧
       (IoexpanderConfig.incrementAddress s).i2cAddress ≤ 0x77 ∧
       8 ≤ (IoexpanderConfig.decrementAddress s).i2cAddress ∧
       (IoexpanderConfig.decrementAddress s).i2cAddress ≤ 0x77)) ∧
    (∀ s : IoexpanderState, s.i2cAddress = 0x77 →
      IoexpanderConfig.incrementAddress s = s) ∧
    (∀ s : IoexpanderState, s.i2cAddress = 0x08 →
      IoexpanderConfig.decrementAddress s = s) ∧
    (∀ (gen : IOExpanderOptions → String) (s : IoexpanderState),
      s.i2cAddress < 0x08 ∨ s.i2cAddress > 0x77 →
      (IoexpanderConfig.goNext gen s).error =
        some "I²C address must be between 0x08 and 0x77" ∧
      (IoexpanderConfig.goNext gen s).configFiles = s.configFiles) ∧
    (∀ s : TurntableState, 8 ≤ s.i2cAddress → s.i2cAddress ≤ 0x77 →
      (8 ≤ (TurntableConfig.incrementAddress s).i2cAddress ∧
       (TurntableConfig.incrementAddress s).i2cAddress ≤ 0x77 ∧
       8 ≤ (TurntableConfig.decrementAddress s).i2cAddress ∧
       (TurntableConfig.decrementAddress s).i2cAddress ≤ 0x77)) ∧
    (∀ s : TurntableState, s.i2cAddress = 0x77 →
      TurntableConfig.incrementAddress s = s) ∧
    (∀ s : TurntableState, s.i2cAddress = 0x08 →
      TurntableConfig.decrementAddress s = s) ∧
    (∀ (gen : TurntableOptions → String) (s : TurntableState),
      s.i2cAddress < 0x08 ∨ s.i2cAddress > 0x77 →
      (TurntableConfig.goNext gen s).error ≠ none ∧
      "I²C address must be between 0x08 and 0x77" ∈
        TurntableConfig.validationErrors s ∧
      (TurntableConfig.goNext gen s).configFiles = s.configFiles) := by
  refine ⟨?_, ?_, ?_, ?_, ?_, ?_, ?_, ?_⟩
  · intro s h1 h2
    unfold IoexpanderConfig.incrementAddress IoexpanderConfig.decrementAddress
    split_ifs <;> simp_all <;> omega
  · intro s h
    unfold IoexpanderConfig.incrementAddress
    rw [if_neg]
    omega
  · intro s h
    unfold IoexpanderConfig.decrementAddress
    rw [if_neg]
    omega
  · intro gen s h
    unfold IoexpanderConfig.goNext
    rw [if_pos h]
    exact ⟨rfl, rfl⟩
  · intro s h1 h2
    unfold TurntableConfig.incrementAddress TurntableConfig.decrementAddress
    split_ifs <;> simp_all <;> omega
  · intro s h
    unfold TurntableConfig.incrementAddress
    rw [if_neg]
    omega
  · intro s h
    unfold TurntableConfig.decrementAddress
    rw [if_neg]
    omega
  · intro gen s h
    have herr : "I²C address must be between 0x08 and 0x77" ∈
        TurntableConfig.validationErrors s := by
      unfold TurntableConfig.validationErrors
      rw [if_pos h]
      simp
    have hne : TurntableConfig.validationErrors s ≠ [] := by
      intro hnil
      rw [hnil] at herr
      exact List.not_mem_nil _ herr
    unfold TurntableConfig.goNext
    simp only [if_pos hne]
    exact ⟨by simp, herr, by simp⟩

/-- Witness for C10 at concrete inputs. -/
theorem c10_i2c_address_invariants_witness :
    (8 : Int) ≤
      (IoexpanderConfig.incrementAddress
        ⟨0x65, false, false, false, false, false, none, []⟩).i2cAddress ∧
    (IoexpanderConfig.goNext (fun _ => "")
        ⟨0x78, false, false, false, false, false, none, []⟩).configFiles = [] := by
  constructor
  · exact (c10_i2c_address_invariants.1
      ⟨0x65, false, false, false, false, false, none, []⟩ (by decide) (by decide)).1
  · exact (c10_i2c_address_invariants.2.2.2.1 (fun _ => "")
      ⟨0x78, false, false, false, false, false, none, []⟩ (Or.inr (by decide))).2

/-! ## views/workspace.ts : compile / upload pipeline -/

/-- The device data `Workspace` reads (`ArduinoCliBoardInfo`). -/
structure BoardInfo where
  name : String
  fqbn : String
  port : String
deriving DecidableEq, Repr

/-- Result shape of the arduino-cli collaborator:
`{success, output?, error?}`. -/
structure CliResult where
  success : Bool
  output : Option String
  error : Option String
deriving DecidableEq, Repr

/-- Outcome of awaiting a collaborator call: a result, or a thrown error
(a rejected promise). -/
inductive CallOutcome where
  | ok (r : CliResult)
  | threw (msg : String)
deriving DecidableEq, Repr

/-- A record of one collaborator invocation with its arguments. -/
inductive CliCall where
  | compileCall (sketch fqbn : String)
  | uploadCall (sketch fqbn port : String)
deriving DecidableEq, Repr

/-- Events observed during one run: the collaborator calls made and the
successive values assigned to `progressPercent`, in order. -/
structure RunTrace where
  calls : List CliCall
  progressValues : List Nat
deriving DecidableEq, Repr

/-- The fields of `Workspace` (and of the shared `InstallerState`) that
`compile`/`upload` read and write. -/
structure WorkspaceState where
  selectedDevice : Option BoardInfo
  scratchPath : Option String
  configFiles : List ConfigFile
  isCompiling : Bool
  compileLog : String
  compileSuccess : Option Bool
  compileError : Option String
  progressPercent : Nat
deriving DecidableEq, Repr

/-- The error message thrown when the device has an empty FQBN. -/
def noFqbnMessage (name : String) : String :=
  "Board \"" ++ name ++ "\" has no FQBN — install Arduino CLI and rescan to identify it."

/-- `Workspace.compile`.  `save` is the outcome of the `saveFiles()`
filesystem step, `cli` the outcome of `cli.compile(scratchPath, fqbn)`;
both are awaited collaborators and may throw. -/
def Workspace.compileRun (s : WorkspaceState) (save : Except String Unit)
    (cli : CallOutcome) : WorkspaceState × RunTrace :=
  match s.selectedDevice, s.scratchPath with
  | some device, some scratch =>
    let s0 : WorkspaceState :=
      { s with isCompiling := true, compileLog := "", compileError := none,
               compileSuccess := none, progressPercent := 10 }
    match save with
    | .error msg =>
      ({ s0 with compileError := some msg, compileSuccess := some false,
                 isCompiling := false }, ⟨[], [10]⟩)
    | .ok _ =>
      let s1 := { s0 with progressPercent := 20 }
      if device.fqbn = "" then
        ({ s1 with compileError := some (noFqbnMessage device.name),
                   compileSuccess := some false, isCompiling := false },
         ⟨[], [10, 20]⟩)
      else
        let s2 := { s1 with
          compileLog := s1.compileLog ++ "Compiling for " ++ device.fqbn ++ "...\n",
          progressPercent := 40 }
        match cli with
        | .threw msg =>
          ({ s2 with compileError := some msg, compileSuccess := some false,
                     isCompiling := false },
           ⟨[.compileCall scratch device.fqbn], [10, 20, 40]⟩)
        | .ok r =>
          let s3 := { s2 with compileLog := s2.compileLog ++ r.output.getD "" }
          if r.success = false then
            ({ s3 with compileError := some (r.error.getD "Compilation failed"),
                       compileSuccess := some false, isCompiling := false },
             ⟨[.compileCall scratch device.fqbn], [10, 20, 40]⟩)
          else
            ({ s3 with progressPercent := 70, compileSuccess := some true,
                       compileLog := s3.compileLog ++ "\n✓ Compile successful!",
                       isCompiling := false },
             ⟨[.compileCall scratch device.fqbn], [10, 20, 40, 70]⟩)
  | _, _ => (s, ⟨[], []⟩)

/-- `Workspace.upload`.  `cli` is the outcome of
`cli.upload(scratchPath, fqbn, port)`. -/
def Workspace.uploadRun (s : WorkspaceState) (cli : CallOutcome) :
    WorkspaceState × RunTrace :=
  match s.selectedDevice, s.scratchPath with
  | some device, some scratch =>
    let s0 : WorkspaceState :=
      { s with isCompiling := true, compileError := none, progressPercent := 75 }
    if device.fqbn = "" then
      ({ s0 with compileError := some (noFqbnMessage device.name),
                 compileSuccess := some false, isCompiling := false },
       ⟨[], [75]⟩)
    else
      let s1 := { s0 with
        compileLog := s0.compileLog ++ "\nUploading to " ++ device.port ++ "...\n",
        progressPercent := 80 }
      match cli with
      | .threw msg =>
        ({ s1 with compileError := some msg, compileSuccess := some false,
                   isCompiling := false },
         ⟨[.uploadCall scratch device.fqbn device.port], [75, 80]⟩)
      | .ok r =>
        let s2 := { s1 with compileLog := s1.compileLog ++ r.output.getD "" }
        if r.success = false then
          ({ s2 with compileError := some (r.error.getD "Upload failed"),
                     compileSuccess := some false, isCompiling := false },
           ⟨[.uploadCall scratch device.fqbn device.port], [75, 80]⟩)
        else
          ({ s2 with progressPercent := 100, compileSuccess := some true,
                     compileLog := s2.compileLog ++ "\n✓ Upload complete!",
                     isCompiling := false },
           ⟨[.uploadCall scratch device.fqbn device.port], [75, 80, 100]⟩)
  | _, _ => (s, ⟨[], []⟩)

/-- `Workspace.compileAndUpload`: run compile, then upload only when
`this.compileSuccess` is truthy. -/
def Workspace.compileAndUploadRun (s : WorkspaceState) (save : Except String Unit)
    (cliCompile cliUpload : CallOutcome) : WorkspaceState × RunTrace :=
  let r1 := Workspace.compileRun s save cliCompile
  if r1.1.compileSuccess = some true then
    let r2 := Workspace.uploadRun r1.1 cliUpload
    (r2.1, ⟨r1.2.calls ++ r2.2.calls, r1.2.progressValues ++ r2.2.progressValues⟩)
  else r1

lemma compileRun_prog_shape (s : WorkspaceState) (save : Except String Unit)
    (cli : CallOutcome) :
    (Workspace.compileRun s save cli).2.progressValues = [] ∨
    (Workspace.compileRun s save cli).2.progressValues = [10] ∨
    (Workspace.compileRun s save cli).2.progressValues = [10, 20] ∨
    (Workspace.compileRun s save cli).2.progressValues = [10, 20, 40] ∨
    (Workspace.compileRun s save cli).2.progressValues = [10, 20, 40, 70] := by
  rcases hd : s.selectedDevice with _ | device <;>
    rcases hs : s.scratchPath with _ | scratch <;>
    simp only [Workspace.compileRun, hd, hs] <;>
    try tauto
  rcases save with msg | u
  · tauto
  · by_cases hf : device.fqbn = "" <;> simp only [hf, reduceIte]
    · tauto
    · rcases cli with r | msg
      · by_cases hsuc : r.success = false <;> simp only [hsuc, reduceIte] <;> tauto
      · tauto

lemma uploadRun_prog_shape (s : WorkspaceState) (cli : CallOutcome) :
    (Workspace.uploadRun s cli).2.progressValues = [] ∨
    (Workspace.uploadRun s cli).2.progressValues = [75] ∨
    (Workspace.uploadRun s cli).2.progressValues = [75, 80] ∨
    (Workspace.uploadRun s cli).2.progressValues = [75, 80, 100] := by
  rcases hd : s.selectedDevice with _ | device <;>
    rcases hs : s.scratchPath with _ | scratch <;>
    simp only [Workspace.uploadRun, hd, hs] <;>
    try tauto
  by_cases hf : device.fqbn = "" <;> simp only [hf, reduceIte]
  · tauto
  · rcases cli with r | msg
    · by_cases hsuc : r.success = false <;> simp only [hsuc, reduceIte] <;> tauto
    · tauto

lemma uploadRun_hundred (s : WorkspaceState) (cli : CallOutcome)
    (h : 100 ∈ (Workspace.uploadRun s cli).2.progressValues) :
    ∃ r, cli = .ok r ∧ r.success = true := by
  rcases hd : s.selectedDevice with _ | device <;>
    rcases hs : s.scratchPath with _ | scratch <;>
    simp only [Workspace.uploadRun, hd, hs] at h <;>
    try simp at h
  by_cases hf : device.fqbn = "" <;> simp only [hf, reduceIte] at h
  · simp at h
  · rcases cli with r | msg
    · by_cases hsuc : r.success = false <;> simp only [hsuc, reduceIte] at h
      · simp at h
      · exact ⟨r, rfl, by simpa using hsuc⟩
    · simp at h

lemma uploadRun_guard_none (s : WorkspaceState) (cli : CallOutcome)
    (h : s.selectedDevice = none ∨ s.scratchPath = none) :
    Workspace.uploadRun s cli = (s, ⟨[], []⟩) := by
  rcases hd : s.selectedDevice with _ | device <;>
    rcases hs : s.scratchPath with _ | scratch <;>
    simp only [Workspace.uploadRun, hd, hs] <;>
    simp_all

lemma compileRun_success_cases (s : WorkspaceState) (save : Except String Unit)
    (cli : CallOutcome)
    (h : (Workspace.compileRun s save cli).1.compileSuccess = some true) :
    (Workspace.compileRun s save cli = (s, ⟨[], []⟩) ∧
      (s.selectedDevice = none ∨ s.scratchPath = none)) ∨
    (∃ r, cli = .ok r ∧ r.success = true ∧
      (Workspace.compileRun s save cli).2.progressValues = [10, 20, 40, 70]) := by
  rcases hd : s.selectedDevice with _ | device <;>
    rcases hs : s.scratchPath with _ | scratch <;>
    simp only [Workspace.compileRun, hd, hs] at h ⊢ <;>
    try tauto
  rcases save with msg | u
  · simp at h
  · by_cases hf : device.fqbn = "" <;> simp only [hf, reduceIte] at h ⊢
    · simp at h
    · rcases cli with r | msg
      · by_cases hsuc : r.success = false <;> simp only [hsuc, reduceIte] at h ⊢
        · simp at h
        · exact Or.inr ⟨r, rfl, by simpa using hsuc, rfl⟩
      · simp at h

/-- C3.  With a selected device whose FQBN is empty (and a scratch path
present), neither `compile` nor `upload` ever invokes an arduino-cli
collaborator, both end with `compileSuccess = false`, and (whenever the
run reaches the FQBN guard) the error message names the missing FQBN. -/
theorem c3_empty_fqbn_guard (s : WorkspaceState) (device : BoardInfo)
    (scratch : String) (hd : s.selectedDevice = some device)
    (hs : s.scratchPath = some scratch) (hf : device.fqbn = "") :
    (∀ (save : Except String Unit) (cli : CallOutcome),
      (Workspace.compileRun s save cli).2.calls = [] ∧
      (Workspace.compileRun s save cli).1.compileSuccess = some false ∧
      (save = .ok () →
        (Workspace.compileRun s save cli).1.compileError =
          some (noFqbnMessage device.name))) ∧
    (∀ cli : CallOutcome,
      (Workspace.uploadRun s cli).2.calls = [] ∧
      (Workspace.uploadRun s cli).1.compileSuccess = some false ∧
      (Workspace.uploadRun s cli).1.compileError =
        some (noFqbnMessage device.name)) ∧
    (∃ pre post : String,
      noFqbnMessage device.name = pre ++ "FQBN" ++ post) := by
  refine ⟨?_, ?_, ?_⟩
  · intro save cli
    rcases save with msg | u
    · simp only [Workspace.compileRun, hd, hs]
      simp
    · simp only [Workspace.compileRun, hd, hs, hf, reduceIte]
      simp
  · intro cli
    simp only [Workspace.uploadRun, hd, hs, hf, reduceIte]
    simp
  · refine ⟨"Board \"" ++ device.name ++ "\" has no ",
      " — install Arduino CLI and rescan to identify it.", ?_⟩
    have h : ("\" has no FQBN — install Arduino CLI and rescan to identify it." : String)
        = "\" has no " ++ "FQBN" ++ " — install Arduino CLI and rescan to identify it." := by
      decide
    unfold noFqbnMessage
    rw [h]
    simp [String.append_assoc]

/-- Witness for C3 at a concrete state. -/
theorem c3_empty_fqbn_guard_witness :
    (Workspace.compileRun
      ⟨some ⟨"CH340 Serial", "", "MOCK_CH340"⟩, some "/tmp/b", [], false, "",
       none, none, 0⟩
      (.ok ()) (.ok ⟨true, none, none⟩)).2.calls = [] := by
  exact (c3_empty_fqbn_guard
    ⟨some ⟨"CH340 Serial", "", "MOCK_CH340"⟩, some "/tmp/b", [], false, "",
     none, none, 0⟩
    ⟨"CH340 Serial", "", "MOCK_CH340"⟩ "/tmp/b" rfl rfl rfl
    |>.1 (.ok ()) (.ok ⟨true, none, none⟩)).1

/-- C4.  When the compile collaborator reports failure the run ends
`failed` carrying the collaborator error (or the fallback
"Compilation failed"), the collaborator output is appended to the log,
and `compileAndUpload` never invokes the upload collaborator. -/
theorem c4_compile_failure_propagation (s : WorkspaceState) (device : BoardInfo)
    (scratch : String) (r : CliResult) (hd : s.selectedDevice = some device)
    (hs : s.scratchPath = some scratch) (hf : device.fqbn ≠ "")
    (hr : r.success = false) :
    (Workspace.compileRun s (.ok ()) (.ok r)).1.compileSuccess = some false ∧
    (Workspace.compileRun s (.ok ()) (.ok r)).1.compileError =
      some (r.error.getD "Compilation failed") ∧
    (Workspace.compileRun s (.ok ()) (.ok r)).1.compileLog =
      "Compiling for " ++ device.fqbn ++ "...\n" ++ r.output.getD "" ∧
    (∀ cliUpload : CallOutcome,
      (Workspace.compileAndUploadRun s (.ok ()) (.ok r) cliUpload).2.calls =
        [CliCall.compileCall scratch device.fqbn]) := by
  have hred :
      Workspace.compileRun s (.ok ()) (.ok r) =
        ({ s with isCompiling := false,
                  compileLog :=
                    "" ++ "Compiling for " ++ device.fqbn ++ "...\n" ++ r.output.getD "",
                  compileError := some (r.error.getD "Compilation failed"),
                  compileSuccess := some false, progressPercent := 40 },
         ⟨[.compileCall scratch device.fqbn], [10, 20, 40]⟩) := by
    simp only [Workspace.compileRun, hd, hs, if_neg hf, hr, reduceIte]
  refine ⟨by rw [hred], by rw [hred], ?_, ?_⟩
  · rw [hred]
    rfl
  · intro cliUpload
    unfold Workspace.compileAndUploadRun
    rw [hred]
    simp

/-- Witness for C4 at a concrete state. -/
theorem c4_compile_failure_propagation_witness :
    (Workspace.compileRun
      ⟨some ⟨"Arduino Mega 2560", "arduino:avr:mega", "/dev/ttyACM0"⟩,
       some "/tmp/b", [], false, "", none, none, 0⟩
      (.ok ()) (.ok ⟨false, some "out", some "compile error"⟩)).1.compileError =
      some "compile error" := by
  exact (c4_compile_failure_propagation
    ⟨some ⟨"Arduino Mega 2560", "arduino:avr:mega", "/dev/ttyACM0"⟩,
     some "/tmp/b", [], false, "", none, none, 0⟩
    ⟨"Arduino Mega 2560", "arduino:avr:mega", "/dev/ttyACM0"⟩ "/tmp/b"
    ⟨false, some "out", some "compile error"⟩ rfl rfl (by decide) rfl).2.1

/-- C5.  Within a single run of `compile`, `upload`, or
`compileAndUpload`, the successive values assigned to `progressPercent`
never decrease, and 100 is assigned only after the upload collaborator
returned success — for the combined run, only when both collaborators
returned success. -/
theorem c5_progress_monotonic :
    (∀ (s : WorkspaceState) (save : Except String Unit) (cli : CallOutcome),
      ((Workspace.compileRun s save cli).2.progressValues).Chain' (· ≤ ·) ∧
      100 ∉ (Workspace.compileRun s save cli).2.progressValues) ∧
    (∀ (s : WorkspaceState) (cli : CallOutcome),
      ((Workspace.uploadRun s cli).2.progressValues).Chain' (· ≤ ·) ∧
      (100 ∈ (Workspace.uploadRun s cli).2.progressValues →
        ∃ r, cli = .ok r ∧ r.success = true)) ∧
    (∀ (s : WorkspaceState) (save : Except String Unit)
        (cliC cliU : CallOutcome),
      ((Workspace.compileAndUploadRun s save cliC cliU).2.progressValues).Chain'
        (· ≤ ·) ∧
      (100 ∈ (Workspace.compileAndUploadRun s save cliC cliU).2.progressValues →
        (∃ rc, cliC = .ok rc ∧ rc.success = true) ∧
        (∃ ru, cliU = .ok ru ∧ ru.success = true))) := by
  refine ⟨?_, ?_, ?_⟩
  · intro s save cli
    rcases compileRun_prog_shape s save cli with h | h | h | h | h <;>
      rw [h] <;> exact ⟨by norm_num [List.chain'_cons], by decide⟩
  · intro s cli
    constructor
    · rcases uploadRun_prog_shape s cli with h | h | h | h <;> rw [h] <;>
        norm_num [List.chain'_cons]
    · exact uploadRun_hundred s cli
  · intro s save cliC cliU
    unfold Workspace.compileAndUploadRun
    by_cases hsucc : (Workspace.compileRun s save cliC).1.compileSuccess = some true
    · simp only [hsucc, reduceIte]
      rcases compileRun_success_cases s save cliC hsucc with ⟨heq, hnone⟩ | ⟨r, hcli, hrs, hprog⟩
      · have hupl : Workspace.uploadRun (Workspace.compileRun s save cliC).1 cliU =
            ((Workspace.compileRun s save cliC).1, ⟨[], []⟩) := by
          rw [heq]
          exact uploadRun_guard_none s cliU hnone
        rw [heq] at hupl ⊢
        rw [hupl]
        simp
      · constructor
        · rw [hprog]
          rcases uploadRun_prog_shape (Workspace.compileRun s save cliC).1 cliU with
            h | h | h | h <;> rw [h] <;> norm_num [List.chain'_cons]
        · intro hmem
          simp only [List.mem_append, hprog] at hmem
          rcases hmem with hmem | hmem
          · simp at hmem
          · exact ⟨⟨r, hcli, hrs⟩,
              uploadRun_hundred (Workspace.compileRun s save cliC).1 cliU hmem⟩
    · simp only [hsucc, reduceIte]
      rcases compileRun_prog_shape s save cliC with h | h | h | h | h <;>
        rw [h] <;>
        exact ⟨by norm_num [List.chain'_cons], fun hmem => absurd hmem (by decide)⟩

/-- Witness for C5: a concrete full success run. -/
theorem c5_progress_monotonic_witness :
    100 ∈ (Workspace.compileAndUploadRun
      ⟨some ⟨"Arduino Mega 2560", "arduino:avr:mega", "/dev/ttyACM0"⟩,
       some "/tmp/b", [], false, "", none, none, 0⟩
      (.ok ()) (.ok ⟨true, some "Sketch uses 12345 bytes", none⟩)
      (.ok ⟨true, some "avrdude done.", none⟩)).2.progressValues ∧
    (∃ rc, (CallOutcome.ok ⟨true, some "Sketch uses 12345 bytes", none⟩) = .ok rc ∧
      rc.success = true) := by
  constructor
  · decide
  · exact ((c5_progress_monotonic.2.2
      ⟨some ⟨"Arduino Mega 2560", "arduino:avr:mega", "/dev/ttyACM0"⟩,
       some "/tmp/b", [], false, "", none, none, 0⟩
      (.ok ()) (.ok ⟨true, some "Sketch uses 12345 bytes", none⟩)
      (.ok ⟨true, some "avrdude done.", none⟩)).2 (by decide)).1

/-- The concrete busy state used to refute C7: a valid device and scratch
path with `isCompiling` already `true`. -/
def busyWorkspaceState : WorkspaceState :=
  ⟨some ⟨"Arduino Mega 2560", "arduino:avr:mega", "/dev/ttyACM0"⟩,
   some "/tmp/scratch", [], true, "", none, none, 0⟩

/-- C7, counterexample.  `Workspace.compile` contains no check of the
`isCompiling` flag: invoked on a state with `isCompiling = true` it still
invokes the compile collaborator. -/
theorem c7_busy_flag_counterexample :
    busyWorkspaceState.isCompiling = true ∧
    (Workspace.compileRun busyWorkspaceState (.ok ())
        (.ok ⟨true, some "", none⟩)).2.calls =
      [CliCall.compileCall "/tmp/scratch" "arduino:avr:mega"] := by
  exact ⟨rfl, by decide⟩

/-- C7, amended.  `compile` and `upload` guard only on the presence of a
device and a scratch path; no busy-flag check exists, so a call made while
`isCompiling = true` still starts a run and invokes the collaborator; the
flag is reset to `false` when the run terminates. -/
theorem c7_busy_flag_amended (s : WorkspaceState) (device : BoardInfo)
    (scratch : String) (hd : s.selectedDevice = some device)
    (hs : s.scratchPath = some scratch) (hbusy : s.isCompiling = true)
    (hf : device.fqbn ≠ "") :
    (∀ r : CliResult,
      (Workspace.compileRun s (.ok ()) (.ok r)).2.calls =
        [CliCall.compileCall scratch device.fqbn] ∧
      (Workspace.compileRun s (.ok ()) (.ok r)).1.isCompiling = false) ∧
    (∀ r : CliResult,
      (Workspace.uploadRun s (.ok r)).2.calls =
        [CliCall.uploadCall scratch device.fqbn device.port] ∧
      (Workspace.uploadRun s (.ok r)).1.isCompiling = false) := by
  constructor
  · intro r
    by_cases hsuc : r.success = false <;>
      simp only [Workspace.compileRun, hd, hs, if_neg hf, hsuc, reduceIte] <;>
      simp
  · intro r
    by_cases hsuc : r.success = false <;>
      simp only [Workspace.uploadRun, hd, hs, if_neg hf, hsuc, reduceIte] <;>
      simp

/-- Witness for the amended C7 at the concrete busy state. -/
theorem c7_busy_flag_amended_witness :
    (Workspace.uploadRun busyWorkspaceState (.ok ⟨true, some "", none⟩)).2.calls =
      [CliCall.uploadCall "/tmp/scratch" "arduino:avr:mega" "/dev/ttyACM0"] := by
  exact (c7_busy_flag_amended busyWorkspaceState
    ⟨"Arduino Mega 2560", "arduino:avr:mega", "/dev/ttyACM0"⟩ "/tmp/scratch"
    rfl rfl rfl (by decide) |>.2 ⟨true, some "", none⟩).1

/-! ## components/device-wizard.ts : scratch-directory synthesis -/

/-- List-based suffix test modelling `String.prototype.endsWith`. -/
def strEndsWith (s suffix : String) : Bool :=
  hasPref suffix.data.reverse s.data.reverse

/-- `isSourceFile` from `DeviceWizard.finish`: not an `.example`/`.template`
file, and carrying one of the allowed extensions. -/
def isSourceFile (name : String) : Bool :=
  if strEndsWith name ".example" || strEndsWith name ".template" then false
  else [".ino", ".cpp", ".h"].any (fun ext => strEndsWith name ext)

/-- `isUserFile` from `DeviceWizard.finish`: the name is one of the
product's `minimumConfigFiles`, or matches one of its
`otherConfigFilePatterns`.  The compiled regexes are abstracted as the
boolean predicate `patMatch`. -/
def isUserFile (minFiles : List String) (patMatch : String → Bool)
    (name : String) : Bool :=
  minFiles.contains name || patMatch name

/-- Truthiness of `content.trim()`: the string has a non-whitespace
character. -/
def trimNonempty (s : String) : Bool :=
  !(s.data.all Char.isWhitespace)

/-- A directory tree: top-level files `(name, content)` and named
subdirectories. -/
inductive FileTree where
  | node (files : List (String × String)) (dirs : List (String × FileTree))

def FileTree.files : FileTree → List (String × String)
  | .node fs _ => fs

def FileTree.dirs : FileTree → List (String × FileTree)
  | .node _ ds => ds

/-- The fixed subdirectory whitelist of the selective copy. -/
def allowedSubDirs : List String := ["src", "libraries"]

/-- `copySourceDir` from `DeviceWizard.finish`: recurse into whitelisted
subdirectories; copy any other entry only when it is a source file and not
a user file (a directory entry passing that filter is copied whole by
`copyFiles`, hence kept with its subtree). -/
def copySourceDir (isUser : String → Bool) : FileTree → FileTree
  | .node fs ds =>
    .node (fs.filter fun p => isSourceFile p.1 && !isUser p.1)
      (ds.attach.filterMap fun p =>
        if allowedSubDirs.contains p.1.1 then
          some (p.1.1, copySourceDir isUser p.1.2)
        else if isSourceFile p.1.1 && !isUser p.1.1 then some p.1
        else none)
  decreasing_by
    rcases p with ⟨⟨n, sub⟩, hp⟩
    have := List.sizeOf_lt_of_mem hp
    simp only [Prod.mk.sizeOf_spec, FileTree.node.sizeOf_spec] at this ⊢
    omega

/-- Association-list lookup keyed on the first component (`Map.get` /
`exists` + `readFile` on the modelled directory). -/
def lookupFile (m : List (String × String)) (n : String) : Option String :=
  (m.find? (fun p => p.1 == n)).map (fun p => p.2)

/-- Top-level file lookup in a tree. -/
def FileTree.lookup (t : FileTree) (n : String) : Option String :=
  lookupFile t.files n

/-- The preservation pass of `DeviceWizard.finish`: keep the user files of
the previous scratch directory whose content has a non-blank trim. -/
def savedUserFiles (isUser : String → Bool)
    (prevFiles : List (String × String)) : List (String × String) :=
  prevFiles.filter (fun p => isUser p.1 && trimNonempty p.2)

/-- `writeFile` into the top level of a tree: replace or append. -/
def upsertFile : List (String × String) → String → String → List (String × String)
  | [], n, c => [(n, c)]
  | p :: rest, n, c =>
    if p.1 == n then (n, c) :: rest else p :: upsertFile rest n c

def FileTree.writeFile (t : FileTree) (n c : String) : FileTree :=
  .node (upsertFile t.files n c) t.dirs

/-- The config-file resolution of `DeviceWizard.finish` for one name:
previously-saved user edit, else the file in the source repo, else its
`.example` sibling, else the empty string. -/
def resolveConfigContent (saved repoFiles : List (String × String))
    (name : String) : String :=
  let content := (lookupFile saved name).getD ""
  if content = "" then
    if (lookupFile repoFiles name).isSome then
      (lookupFile repoFiles name).getD ""
    else if (lookupFile repoFiles (name ++ ".example")).isSome then
      (lookupFile repoFiles (name ++ ".example")).getD ""
    else ""
  else content

/-- The `minimumConfigFiles` loop: record each resolved Config File and
write it into the scratch directory. -/
def resolveStep (saved repoFiles : List (String × String)) :
    List String → List ConfigFile × FileTree → List ConfigFile × FileTree
  | [], acc => acc
  | name :: rest, acc =>
    let content := resolveConfigContent saved repoFiles name
    resolveStep saved repoFiles rest
      (acc.1 ++ [⟨name, content⟩], acc.2.writeFile name content)

/-- The restore loop: write back each remaining preserved user file not
among `minimumConfigFiles`. -/
def restoreStep (minFiles : List String) :
    List (String × String) → List ConfigFile × FileTree → List ConfigFile × FileTree
  | [], acc => acc
  | p :: rest, acc =>
    if minFiles.contains p.1 then restoreStep minFiles rest acc
    else restoreStep minFiles rest
      (acc.1 ++ [⟨p.1, p.2⟩], acc.2.writeFile p.1 p.2)

/-- Result of scratch-directory synthesis: the recorded Config Files and
the scratch tree. -/
structure SynthResult where
  configFiles : List ConfigFile
  scratch : FileTree

/-- Steps 4–6 of `DeviceWizard.finish`: selective copy of the source tree
into the fresh scratch directory, config-file resolution, then restore of
the remaining preserved user files. -/
def synthesize (minFiles : List String) (patMatch : String → Bool)
    (prevFiles : List (String × String)) (repo : FileTree) : SynthResult :=
  let isUser := isUserFile minFiles patMatch
  let saved := savedUserFiles isUser prevFiles
  let scratch0 := copySourceDir isUser repo
  let step1 := resolveStep saved repo.files minFiles ([], scratch0)
  let step2 := restoreStep minFiles saved step1
  ⟨step2.1, step2.2⟩

lemma lookupFile_cons_pos {p : String × String} {rest : List (String × String)}
    {n : String} (h : (p.1 == n) = true) :
    lookupFile (p :: rest) n = some p.2 := by
  unfold lookupFile
  rw [@List.find?_cons_of_pos _ (fun q => q.1 == n) p rest h]
  rfl

lemma lookupFile_cons_neg {p : String × String} {rest : List (String × String)}
    {n : String} (h : (p.1 == n) = false) :
    lookupFile (p :: rest) n = lookupFile rest n := by
  unfold lookupFile
  rw [@List.find?_cons_of_neg _ (fun q => q.1 == n) p rest (by simp [h])]

lemma lookupFile_upsert_self (m : List (String × String)) (n c : String) :
    lookupFile (upsertFile m n c) n = some c := by
  induction m with
  | nil => simp [upsertFile, lookupFile]
  | cons p rest ih =>
    by_cases h : (p.1 == n) = true
    · simp only [upsertFile, h, reduceIte]
      exact lookupFile_cons_pos (by simp)
    · simp only [upsertFile, h, Bool.false_eq_true, reduceIte]
      rw [lookupFile_cons_neg (by simpa using h)]
      exact ih

lemma lookupFile_upsert_ne (m : List (String × String)) {n x : String}
    (c : String) (h : x ≠ n) :
    lookupFile (upsertFile m n c) x = lookupFile m x := by
  induction m with
  | nil =>
    simp only [upsertFile, lookupFile, List.find?]
    have : (n == x) = false := by simpa using fun he => h he.symm
    simp [this]
  | cons p rest ih =>
    by_cases hp : (p.1 == n) = true
    · simp only [upsertFile, hp, reduceIte]
      have hnx : (n == x) = false := by simpa using fun he => h he.symm
      rw [lookupFile_cons_neg hnx]
      have hpx : (p.1 == x) = false := by
        have he : p.1 = n := by simpa using hp
        simpa [he] using fun hx => h hx.symm
      rw [lookupFile_cons_neg hpx]
    · simp only [upsertFile, hp, Bool.false_eq_true, reduceIte]
      by_cases hq : (p.1 == x) = true
      · rw [lookupFile_cons_pos hq, lookupFile_cons_pos hq]
      · rw [lookupFile_cons_neg (by simpa using hq),
          lookupFile_cons_neg (by simpa using hq)]
        exact ih

lemma FileTree.lookup_writeFile_self (t : FileTree) (n c : String) :
    (t.writeFile n c).lookup n = some c :=
  lookupFile_upsert_self t.files n c

lemma FileTree.lookup_writeFile_ne (t : FileTree) {n x : String} (c : String)
    (h : x ≠ n) : (t.writeFile n c).lookup x = t.lookup x :=
  lookupFile_upsert_ne t.files c h

lemma lookupFile_filter_prop {q : String × String → Bool}
    {m : List (String × String)} {n c : String}
    (h : lookupFile (m.filter q) n = some c) :
    ∃ p : String × String, p.1 = n ∧ p.2 = c ∧ q p = true := by
  unfold lookupFile at h
  rcases hf : (m.filter q).find? (fun p => p.1 == n) with _ | p
  · rw [hf] at h
    cases h
  · rw [hf] at h
    have hpred := List.find?_some hf
    have hmem := List.mem_of_find?_eq_some hf
    rw [List.mem_filter] at hmem
    refine ⟨p, by simpa using hpred, ?_, hmem.2⟩
    simpa using h

lemma trimNonempty_ne_empty {c : String} (h : trimNonempty c = true) : c ≠ "" := by
  intro he
  subst he
  exact absurd h (by decide)

lemma resolveStep_fst (saved repoFiles : List (String × String))
    (l : List String) (acc : List ConfigFile × FileTree) :
    (resolveStep saved repoFiles l acc).1 =
      acc.1 ++ l.map (fun n =>
        (⟨n, resolveConfigContent saved repoFiles n⟩ : ConfigFile)) := by
  induction l generalizing acc with
  | nil => simp [resolveStep]
  | cons a rest ih => simp [resolveStep, ih]

lemma resolveStep_lookup_not_mem (saved repoFiles : List (String × String))
    {l : List String} {n : String} (acc : List ConfigFile × FileTree)
    (hn : n ∉ l) :
    (resolveStep saved repoFiles l acc).2.lookup n = acc.2.lookup n := by
  induction l generalizing acc with
  | nil => simp [resolveStep]
  | cons a rest ih =>
    have hna : n ≠ a := fun he => hn (he ▸ List.mem_cons_self ..)
    have hnr : n ∉ rest := fun hr => hn (List.mem_cons_of_mem _ hr)
    simp only [resolveStep]
    rw [ih _ hnr]
    exact FileTree.lookup_writeFile_ne _ _ hna

lemma resolveStep_lookup_mem (saved repoFiles : List (String × String))
    {l : List String} {n : String} (acc : List ConfigFile × FileTree)
    (hn : n ∈ l) :
    (resolveStep saved repoFiles l acc).2.lookup n =
      some (resolveConfigContent saved repoFiles n) := by
  induction l generalizing acc with
  | nil => cases hn
  | cons a rest ih =>
    by_cases hr : n ∈ rest
    · simp only [resolveStep]
      exact ih _ hr
    · have hna : n = a := by
        rcases List.mem_cons.1 hn with h | h
        · exact h
        · exact absurd h hr
      subst hna
      simp only [resolveStep]
      rw [resolveStep_lookup_not_mem _ _ _ hr]
      exact FileTree.lookup_writeFile_self _ _ _

lemma restoreStep_fst (minFiles : List String)
    (saved : List (String × String)) (acc : List ConfigFile × FileTree) :
    (restoreStep minFiles saved acc).1 =
      acc.1 ++ (saved.filter (fun p => !minFiles.contains p.1)).map
        (fun p => (⟨p.1, p.2⟩ : ConfigFile)) := by
  induction saved generalizing acc with
  | nil => simp [restoreStep]
  | cons p rest ih =>
    have hstep : restoreStep minFiles (p :: rest) acc =
        if minFiles.contains p.1 = true then restoreStep minFiles rest acc
        else restoreStep minFiles rest
          (acc.1 ++ [⟨p.1, p.2⟩], acc.2.writeFile p.1 p.2) := rfl
    by_cases hc : minFiles.contains p.1 = true
    · rw [hstep, if_pos hc, ih, List.filter_cons]
      have hm : p.1 ∈ minFiles := by simpa using hc
      simp [hm]
    · rw [hstep, if_neg hc, ih, List.filter_cons]
      have hm : p.1 ∉ minFiles := by simpa using hc
      simp [hm, List.append_assoc]

lemma restoreStep_lookup_of_not_named (minFiles : List String)
    {saved : List (String × String)} {n : String}
    (acc : List ConfigFile × FileTree) (h : ∀ q ∈ saved, q.1 ≠ n) :
    (restoreStep minFiles saved acc).2.lookup n = acc.2.lookup n := by
  induction saved generalizing acc with
  | nil => simp [restoreStep]
  | cons p rest ih =>
    have hp : p.1 ≠ n := h p (List.mem_cons_self ..)
    have hr : ∀ q ∈ rest, q.1 ≠ n := fun q hq => h q (List.mem_cons_of_mem _ hq)
    have hstep : restoreStep minFiles (p :: rest) acc =
        if minFiles.contains p.1 = true then restoreStep minFiles rest acc
        else restoreStep minFiles rest
          (acc.1 ++ [⟨p.1, p.2⟩], acc.2.writeFile p.1 p.2) := rfl
    by_cases hc : minFiles.contains p.1 = true
    · rw [hstep, if_pos hc]
      exact ih _ hr
    · rw [hstep, if_neg hc, ih _ hr]
      exact FileTree.lookup_writeFile_ne _ _ (fun he => hp he.symm)

lemma restoreStep_lookup_min (minFiles : List String)
    {saved : List (String × String)} {n : String}
    (acc : List ConfigFile × FileTree) (hn : minFiles.contains n = true) :
    (restoreStep minFiles saved acc).2.lookup n = acc.2.lookup n := by
  induction saved generalizing acc with
  | nil => simp [restoreStep]
  | cons p rest ih =>
    have hstep : restoreStep minFiles (p :: rest) acc =
        if minFiles.contains p.1 = true then restoreStep minFiles rest acc
        else restoreStep minFiles rest
          (acc.1 ++ [⟨p.1, p.2⟩], acc.2.writeFile p.1 p.2) := rfl
    by_cases hc : minFiles.contains p.1 = true
    · rw [hstep, if_pos hc]
      exact ih _
    · rw [hstep, if_neg hc, ih _]
      refine FileTree.lookup_writeFile_ne _ _ ?_
      intro he
      exact absurd (he ▸ hn) (by simpa using hc)

lemma restoreStep_lookup_saved (minFiles : List String)
    {saved : List (String × String)} {n c : String}
    (acc : List ConfigFile × FileTree)
    (hnodup : (saved.map Prod.fst).Nodup) (hmem : (n, c) ∈ saved)
    (hnmin : minFiles.contains n = false) :
    (restoreStep minFiles saved acc).2.lookup n = some c := by
  induction saved generalizing acc with
  | nil => cases hmem
  | cons p rest ih =>
    rw [List.map_cons, List.nodup_cons] at hnodup
    have hstep : ∀ b : List ConfigFile × FileTree,
        restoreStep minFiles (p :: rest) b =
        if minFiles.contains p.1 = true then restoreStep minFiles rest b
        else restoreStep minFiles rest
          (b.1 ++ [⟨p.1, p.2⟩], b.2.writeFile p.1 p.2) := fun b => rfl
    rcases List.mem_cons.1 hmem with h | h
    · have hp1 : p.1 = n := by rw [← h]
      have hp2 : p.2 = c := by rw [← h]
      rw [hstep, hp1, hp2, if_neg (by simpa using hnmin)]
      have hrest : ∀ q ∈ rest, q.1 ≠ n := by
        intro q hq he
        have hm : q.1 ∈ rest.map Prod.fst := List.mem_map.2 ⟨q, hq, rfl⟩
        rw [he, ← hp1] at hm
        exact hnodup.1 hm
      rw [restoreStep_lookup_of_not_named _ _ hrest]
      exact FileTree.lookup_writeFile_self _ _ _
    · by_cases hc : minFiles.contains p.1 = true
      · rw [hstep, if_pos hc]
        exact ih _ hnodup.2 h
      · rw [hstep, if_neg hc]
        exact ih _ hnodup.2 h

lemma savedUserFiles_lookup_some {isUser : String → Bool}
    {prevFiles : List (String × String)} {n c : String}
    (h : lookupFile (savedUserFiles isUser prevFiles) n = some c) :
    isUser n = true ∧ trimNonempty c = true := by
  obtain ⟨p, hp1, hp2, hq⟩ := lookupFile_filter_prop h
  rw [Bool.and_eq_true] at hq
  exact ⟨hp1 ▸ hq.1, hp2 ▸ hq.2⟩

lemma synthesize_eq (minFiles : List String) (patMatch : String → Bool)
    (prevFiles : List (String × String)) (repo : FileTree) :
    synthesize minFiles patMatch prevFiles repo =
      ⟨(restoreStep minFiles (savedUserFiles (isUserFile minFiles patMatch) prevFiles)
          (resolveStep (savedUserFiles (isUserFile minFiles patMatch) prevFiles)
            repo.files minFiles
            ([], copySourceDir (isUserFile minFiles patMatch) repo))).1,
       (restoreStep minFiles (savedUserFiles (isUserFile minFiles patMatch) prevFiles)
          (resolveStep (savedUserFiles (isUserFile minFiles patMatch) prevFiles)
            repo.files minFiles
            ([], copySourceDir (isUserFile minFiles patMatch) repo))).2⟩ := rfl

/-- C1.  For each name among `minimumConfigFiles`, the resolved content
follows the priority: preserved user edit when present, else the file in
the source tree when it exists, else its `.example` sibling when that
exists, else the empty string — and this content is both recorded as a
Config File and written into the scratch directory. -/
theorem c1_config_file_resolution (minFiles : List String)
    (patMatch : String → Bool) (prevFiles : List (String × String))
    (repo : FileTree) (name : String) (hmem : name ∈ minFiles) :
    (∀ c, lookupFile (savedUserFiles (isUserFile minFiles patMatch) prevFiles)
        name = some c →
      resolveConfigContent (savedUserFiles (isUserFile minFiles patMatch)
        prevFiles) repo.files name = c) ∧
    (lookupFile (savedUserFiles (isUserFile minFiles patMatch) prevFiles)
        name = none →
      ∀ c, lookupFile repo.files name = some c →
      resolveConfigContent (savedUserFiles (isUserFile minFiles patMatch)
        prevFiles) repo.files name = c) ∧
    (lookupFile (savedUserFiles (isUserFile minFiles patMatch) prevFiles)
        name = none →
      lookupFile repo.files name = none →
      ∀ c, lookupFile repo.files (name ++ ".example") = some c →
      resolveConfigContent (savedUserFiles (isUserFile minFiles patMatch)
        prevFiles) repo.files name = c) ∧
    (lookupFile (savedUserFiles (isUserFile minFiles patMatch) prevFiles)
        name = none →
      lookupFile repo.files name = none →
      lookupFile repo.files (name ++ ".example") = none →
      resolveConfigContent (savedUserFiles (isUserFile minFiles patMatch)
        prevFiles) repo.files name = "") ∧
    ((⟨name, resolveConfigContent (savedUserFiles (isUserFile minFiles patMatch)
        prevFiles) repo.files name⟩ : ConfigFile) ∈
      (synthesize minFiles patMatch prevFiles repo).configFiles) ∧
    ((synthesize minFiles patMatch prevFiles repo).scratch.lookup name =
      some (resolveConfigContent (savedUserFiles (isUserFile minFiles patMatch)
        prevFiles) repo.files name)) := by
  refine ⟨?_, ?_, ?_, ?_, ?_, ?_⟩
  · intro c hc
    have hne : c ≠ "" :=
      trimNonempty_ne_empty (savedUserFiles_lookup_some hc).2
    simp only [resolveConfigContent, hc, Option.getD_some]
    rw [if_neg hne]
  · intro hnone c hrepo
    simp only [resolveConfigContent, hnone, Option.getD_none, if_true]
    rw [if_pos (by simp [hrepo]), hrepo]
    rfl
  · intro hnone hrepo c hex
    simp only [resolveConfigContent, hnone, Option.getD_none, if_true]
    rw [if_neg (by simp [hrepo]), if_pos (by simp [hex]), hex]
    rfl
  · intro hnone hrepo hex
    simp only [resolveConfigContent, hnone, Option.getD_none, if_true]
    rw [if_neg (by simp [hrepo]), if_neg (by simp [hex])]
  · rw [synthesize_eq]
    simp only [restoreStep_fst, resolveStep_fst, List.nil_append]
    refine List.mem_append_left _ ?_
    exact List.mem_map.2 ⟨name, hmem, rfl⟩
  · rw [synthesize_eq]
    simp only []
    rw [restoreStep_lookup_min _ _ (by simpa using hmem)]
    exact resolveStep_lookup_mem _ _ _ hmem

/-- Witness for C1 at concrete inputs: the preserved edit wins, and the
resolved content is recorded. -/
theorem c1_config_file_resolution_witness :
    resolveConfigContent
        (savedUserFiles
          (isUserFile ["config.h"] (fun n => n == "myAutomation.h"))
          [("config.h", "// my edit"), ("myAutomation.h", "AUTOSTART"),
           ("junk.txt", "x")])
        (FileTree.node
          [("config.h.example", "// example config"),
           ("CommandStation-EX.ino", "// sketch"),
           ("config.h", "// repo config")] []).files
        "config.h" = "// my edit" ∧
    ((⟨"config.h", "// my edit"⟩ : ConfigFile) ∈
      (synthesize ["config.h"] (fun n => n == "myAutomation.h")
        [("config.h", "// my edit"), ("myAutomation.h", "AUTOSTART"),
         ("junk.txt", "x")]
        (FileTree.node
          [("config.h.example", "// example config"),
           ("CommandStation-EX.ino", "// sketch"),
           ("config.h", "// repo config")] [])).configFiles) := by
  have h := c1_config_file_resolution ["config.h"]
    (fun n => n == "myAutomation.h")
    [("config.h", "// my edit"), ("myAutomation.h", "AUTOSTART"),
     ("junk.txt", "x")]
    (FileTree.node
      [("config.h.example", "// example config"),
       ("CommandStation-EX.ino", "// sketch"),
       ("config.h", "// repo config")] [])
    "config.h" (by decide)
  have hr := h.1 "// my edit" (by decide)
  refine ⟨hr, ?_⟩
  have := h.2.2.2.2.1
  rwa [hr] at this

/-- C2.  After synthesis every minimum config-file name has exactly one
recorded Config File entry; the selective copy emits only entries that are
source files and not user files (subdirectories aside from the structural
whitelist included); and the final scratch content of every user-file name
is exactly what the resolution and restore steps wrote. -/
theorem c2_synthesis_invariants (minFiles : List String)
    (patMatch : String → Bool) (prevFiles : List (String × String))
    (repo : FileTree) (hnodup : minFiles.Nodup)
    (hprev : (prevFiles.map Prod.fst).Nodup) :
    (∀ n ∈ minFiles,
      ((synthesize minFiles patMatch prevFiles repo).configFiles.map
        ConfigFile.name).count n = 1) ∧
    (∀ p ∈ (copySourceDir (isUserFile minFiles patMatch) repo).files,
      isSourceFile p.1 = true ∧ isUserFile minFiles patMatch p.1 = false) ∧
    (∀ p ∈ (copySourceDir (isUserFile minFiles patMatch) repo).dirs,
      p.1 ∈ allowedSubDirs ∨
        (isSourceFile p.1 = true ∧ isUserFile minFiles patMatch p.1 = false)) ∧
    (∀ n ∈ minFiles,
      (synthesize minFiles patMatch prevFiles repo).scratch.lookup n =
        some (resolveConfigContent
          (savedUserFiles (isUserFile minFiles patMatch) prevFiles)
          repo.files n)) ∧
    (∀ p ∈ savedUserFiles (isUserFile minFiles patMatch) prevFiles,
      p.1 ∉ minFiles →
      (synthesize minFiles patMatch prevFiles repo).scratch.lookup p.1 =
        some p.2) := by
  refine ⟨?_, ?_, ?_, ?_, ?_⟩
  · intro n hn
    rw [synthesize_eq]
    simp only [restoreStep_fst, resolveStep_fst, List.nil_append,
      List.map_append, List.map_map, List.count_append]
    have h1 : minFiles.map (ConfigFile.name ∘ fun m =>
        (⟨m, resolveConfigContent
          (savedUserFiles (isUserFile minFiles patMatch) prevFiles)
          repo.files m⟩ : ConfigFile)) = minFiles := by
      simp [Function.comp_def]
    have h2 : ((savedUserFiles (isUserFile minFiles patMatch)
        prevFiles).filter (fun p => !minFiles.contains p.1)).map
          (ConfigFile.name ∘ fun p => (⟨p.1, p.2⟩ : ConfigFile)) =
        ((savedUserFiles (isUserFile minFiles patMatch)
          prevFiles).filter (fun p => !minFiles.contains p.1)).map
            Prod.fst := by
      simp [Function.comp_def]
    rw [h1, h2]
    have hc1 : minFiles.count n = 1 := by
      have hle := List.nodup_iff_count_le_one.1 hnodup n
      have hge : 1 ≤ minFiles.count n := List.count_pos_iff.2 hn
      omega
    have hc0 : (((savedUserFiles (isUserFile minFiles patMatch)
        prevFiles).filter (fun p => !minFiles.contains p.1)).map
          Prod.fst).count n = 0 := by
      rw [List.count_eq_zero]
      intro hmem
      obtain ⟨p, hp, hpn⟩ := List.mem_map.1 hmem
      rw [List.mem_filter] at hp
      have : minFiles.contains p.1 = false := by
        have := hp.2
        simpa using this
      rw [hpn] at this
      exact absurd hn (by simpa using this)
    omega
  · intro p hp
    rcases repo with ⟨fs, ds⟩
    rw [copySourceDir] at hp
    simp only [FileTree.files] at hp
    rw [List.mem_filter, Bool.and_eq_true] at hp
    exact ⟨hp.2.1, by simpa using hp.2.2⟩
  · intro p hp
    rcases repo with ⟨fs, ds⟩
    rw [copySourceDir] at hp
    simp only [FileTree.dirs] at hp
    obtain ⟨x, _, hx⟩ := List.mem_filterMap.1 hp
    by_cases h1 : allowedSubDirs.contains x.1.1 = true
    · rw [if_pos h1] at hx
      cases hx
      exact Or.inl (by simpa using h1)
    · rw [if_neg h1] at hx
      by_cases h2 : (isSourceFile x.1.1 && !isUserFile minFiles patMatch x.1.1) = true
      · rw [if_pos h2] at hx
        cases hx
        rw [Bool.and_eq_true] at h2
        exact Or.inr ⟨h2.1, by simpa using h2.2⟩
      · rw [if_neg h2] at hx
        cases hx
  · intro n hn
    rw [synthesize_eq]
    simp only []
    rw [restoreStep_lookup_min _ _ (by simpa using hn)]
    exact resolveStep_lookup_mem _ _ _ hn
  · intro p hp hnotmin
    rw [synthesize_eq]
    simp only []
    have hsnodup : ((savedUserFiles (isUserFile minFiles patMatch)
        prevFiles).map Prod.fst).Nodup :=
      hprev.sublist (List.Sublist.map Prod.fst (List.filter_sublist _))
    have hpe : (p.1, p.2) ∈ savedUserFiles (isUserFile minFiles patMatch)
        prevFiles := by
      simpa using hp
    exact restoreStep_lookup_saved _ _ hsnodup hpe (by simpa using hnotmin)

/-- Witness for C2 at concrete inputs. -/
theorem c2_synthesis_invariants_witness :
    ((synthesize ["config.h"] (fun n => n == "myAutomation.h")
        [("config.h", "// my edit"), ("myAutomation.h", "AUTOSTART")]
        (FileTree.node
          [("config.h", "// repo config"), ("DCCEX.ino", "// sketch"),
           ("notes.md", "doc")] [])).configFiles.map
      ConfigFile.name).count "config.h" = 1 := by
  exact (c2_synthesis_invariants ["config.h"] (fun n => n == "myAutomation.h")
    [("config.h", "// my edit"), ("myAutomation.h", "AUTOSTART")]
    (FileTree.node
      [("config.h", "// repo config"), ("DCCEX.ino", "// sketch"),
       ("notes.md", "doc")] [])
    (by decide) (by decide)).1 "config.h" (by decide)

/-! ## components/device-wizard.ts : finish control flow -/

/-- Result shape of the git collaborator: `{success, error?}`. -/
structure GitResult where
  success : Bool
  error : Option String
deriving DecidableEq, Repr

/-- A Provisioning Record (models/saved-configuration.ts). -/
structure SavedConfiguration where
  id : String
  name : String
  deviceName : String
  devicePort : String
  deviceFqbn : String
  product : String
  productName : String
  version : String
  repoPath : String
  scratchPath : String
  configFiles : List ConfigFile
  lastModified : String
deriving DecidableEq, Repr

/-- The observable commit state of `DeviceWizard.finish`: the in-memory
record list, the last value persisted to the preference store, the error
field, and whether the dialog closed with ok. -/
structure FinishState where
  savedConfigurations : List SavedConfiguration
  persistedStore : Option (List SavedConfiguration)
  finishError : Option String
  dialogClosedOk : Bool
deriving DecidableEq, Repr

/-- The failure-propagation skeleton of `DeviceWizard.finish`:
`checkout` is the git collaborator result (a failure throws before any
synthesis); `deleteThrew` records whether the best-effort
`deleteFiles(scratchPath)` call threw (its try/catch swallows the throw);
`synth` is the outcome of the synthesis section (any filesystem throw in
it aborts via the outer catch); `persist` is the outcome of the final
`preferences.set` call.  The record list is updated in memory before
persisting, exactly as in the source. -/
def DeviceWizard.finishFlow (old : FinishState) (checkout : GitResult)
    (deleteThrew : Bool) (synth : Except String SynthResult)
    (newConf : SavedConfiguration) (persist : Except String Unit) :
    FinishState :=
  if checkout.success = false then
    { old with finishError := some (checkout.error.getD "Checkout failed") }
  else
    -- the deleteFiles try/catch ignores a throw
    let _ := deleteThrew
    match synth with
    | .error e => { old with finishError := some e }
    | .ok _ =>
      let committed := (newConf :: old.savedConfigurations).take 10
      match persist with
      | .error e =>
        { old with savedConfigurations := committed, finishError := some e }
      | .ok _ =>
        { old with savedConfigurations := committed,
                   persistedStore := some committed,
                   finishError := none, dialogClosedOk := true }

/-- A concrete Provisioning Record for the C8 counterexample. -/
def c8NewConf : SavedConfiguration :=
  ⟨"1700000000000", "My CS", "Arduino Mega 2560", "/dev/ttyACM0",
   "arduino:avr:mega", "ex_commandstation", "EX-CommandStation",
   "v5.0.7-Prod", "/repos/CommandStation-EX",
   "/repos/_build/1700000000000/CommandStation-EX", [], "2026-10-11"⟩

/-- C8, counterexample.  A run in which a filesystem call throws — the
best-effort `deleteFiles(scratchPath)` — still commits and persists the
Provisioning Record, because that throw is swallowed; so "any
filesystem/collaborator call throws ⇒ savedConfigurations unchanged and
nothing persisted" is false at this input. -/
theorem c8_abort_policy_counterexample :
    (DeviceWizard.finishFlow ⟨[], none, none, false⟩ ⟨true, none⟩ true
        (.ok ⟨[], FileTree.node [] []⟩) c8NewConf (.ok ())).savedConfigurations
      = [c8NewConf] ∧
    (DeviceWizard.finishFlow ⟨[], none, none, false⟩ ⟨true, none⟩ true
        (.ok ⟨[], FileTree.node [] []⟩) c8NewConf (.ok ())).persistedStore
      = some [c8NewConf] := by
  constructor <;> rfl

/-- C8, amended.  A checkout failure or a throw from the synthesis section
aborts with no record committed and nothing persisted; the best-effort
delete is excluded (its throw is swallowed); and a throw from the final
persist call itself leaves the record appended in memory while persisting
nothing. -/
theorem c8_abort_policy_amended (old : FinishState) (checkout : GitResult)
    (deleteThrew : Bool) (synth : Except String SynthResult)
    (newConf : SavedConfiguration) (persist : Except String Unit) :
    (checkout.success = false →
      DeviceWizard.finishFlow old checkout deleteThrew synth newConf persist =
        { old with finishError := some (checkout.error.getD "Checkout failed") }) ∧
    (∀ e, checkout.success = true → synth = .error e →
      DeviceWizard.finishFlow old checkout deleteThrew synth newConf persist =
        { old with finishError := some e }) ∧
    (∀ e, checkout.success = true → (∃ r, synth = .ok r) → persist = .error e →
      (DeviceWizard.finishFlow old checkout deleteThrew synth newConf
        persist).persistedStore = old.persistedStore ∧
      (DeviceWizard.finishFlow old checkout deleteThrew synth newConf
        persist).savedConfigurations =
        (newConf :: old.savedConfigurations).take 10) := by
  refine ⟨?_, ?_, ?_⟩
  · intro h
    unfold DeviceWizard.finishFlow
    rw [if_pos h]
  · intro e hc hs
    unfold DeviceWizard.finishFlow
    rw [if_neg (by simp [hc]), hs]
  · intro e hc ⟨r, hs⟩ hp
    unfold DeviceWizard.finishFlow
    rw [if_neg (by simp [hc]), hs, hp]
    exact ⟨rfl, rfl⟩

/-- Witness for the amended C8: a failed checkout leaves the store and the
record list untouched. -/
theorem c8_abort_policy_amended_witness :
    DeviceWizard.finishFlow ⟨[], none, none, false⟩ ⟨false, some "boom"⟩ false
        (.ok ⟨[], FileTree.node [] []⟩) c8NewConf (.ok ()) =
      ⟨[], none, some "boom", false⟩ := by
  rw [(c8_abort_policy_amended ⟨[], none, none, false⟩ ⟨false, some "boom"⟩
    false (.ok ⟨[], FileTree.node [] []⟩) c8NewConf (.ok ())).1 rfl]
  rfl

/-! ## config/commandstation.ts (not in the corpus) -/

/-- Modelled from the spec: display selection of the Product A (station)
generator — `src/renderer/src/config/commandstation.ts` is absent from the
corpus; the variants are those of `displayOptions` in
views/commandstation-config.ts. -/
inductive DisplayOption where
  | NONE
  | OLED_128x32
  | OLED_128x64
  | OLED_132x64
  | LCD_16x2
  | LCD_20x4
deriving DecidableEq, Repr

/-- Modelled from the spec: the wireless sub-mode (access point or
client). -/
inductive WifiMode where
  | ap
  | sta
deriving DecidableEq, Repr

/-- Modelled from the spec: the typed option set of
`generateCommandStationConfig` (field list from its unit tests). -/
structure CommandStationConfigOptions where
  motorDriver : String
  display : DisplayOption
  enableWifi : Bool
  wifiMode : WifiMode
  wifiHostname : String
  wifiSsid : String
  wifiPassword : String
  wifiChannel : Nat
  trackAMode : String
  trackBMode : String
  trackALocoId : Nat
  trackBLocoId : Nat
  enablePowerOnStart : Bool
  disableEeprom : Bool

/-- One emitted `#define NAME VALUE` line (empty value for a valueless
define). -/
structure CDefine where
  name : String
  value : String
deriving DecidableEq, Repr

def quoteStr (s : String) : String := "\"" ++ s ++ "\""

/-- Modelled from the spec: the display block — none emits nothing, a WxH
OLED emits one define with `W,H`, an LxH LCD emits one define with the
fixed bus-address prefix. -/
def displayDefines : DisplayOption → List CDefine
  | .NONE => []
  | .OLED_128x32 => [⟨"OLED_DRIVER", "128,32"⟩]
  | .OLED_128x64 => [⟨"OLED_DRIVER", "128,64"⟩]
  | .OLED_132x64 => [⟨"OLED_DRIVER", "132,64"⟩]
  | .LCD_16x2 => [⟨"LCD_DRIVER", "0x27,16,2"⟩]
  | .LCD_20x4 => [⟨"LCD_DRIVER", "0x27,20,4"⟩]

/-- Modelled from the spec: the wireless block, emitted only when wireless
is enabled — hostname (default literal when blank), SSID (placeholder in
access-point mode when blank, omitted in client mode when blank), password
(placeholder when blank), enabled flag, channel — in that order. -/
def wifiDefines (o : CommandStationConfigOptions) : List CDefine :=
  if o.enableWifi = false then []
  else
    [⟨"WIFI_HOSTNAME",
      quoteStr (if o.wifiHostname = "" then "dccex" else o.wifiHostname)⟩] ++
    (match o.wifiMode with
     | .ap => [⟨"WIFI_SSID",
         quoteStr (if o.wifiSsid = "" then "Your network name" else o.wifiSsid)⟩]
     | .sta =>
       if o.wifiSsid = "" then [] else [⟨"WIFI_SSID", quoteStr o.wifiSsid⟩]) ++
    [⟨"WIFI_PASSWORD",
      quoteStr (if o.wifiPassword = "" then "Your network passwd"
        else o.wifiPassword)⟩,
     ⟨"ENABLE_WIFI", "true"⟩,
     ⟨"WIFI_CHANNEL", toString o.wifiChannel⟩]

/-- Modelled from the spec: `generateCommandStationConfig` as its ordered
define list — port and scroll-mode defines, then the motor-driver define,
then display, wireless and EEPROM blocks. -/
def generateCommandStationConfigDefines (o : CommandStationConfigOptions) :
    List CDefine :=
  [⟨"IP_PORT", "2560"⟩, ⟨"SCROLLMODE", "1"⟩,
   ⟨"MOTOR_SHIELD_TYPE", o.motorDriver⟩] ++
  displayDefines o.display ++ wifiDefines o ++
  (if o.disableEeprom then [⟨"DISABLE_EEPROM", ""⟩] else [])

def renderDefine (d : CDefine) : String :=
  if d.value = "" then "#define " ++ d.name
  else "#define " ++ d.name ++ " " ++ d.value

/-- Modelled from the spec: the rendered config text — a header comment
followed by the define lines, one per line, with one trailing newline. -/
def generateCommandStationConfig (o : CommandStationConfigOptions) : String :=
  (generateCommandStationConfigDefines o).foldl
    (fun acc d => acc ++ renderDefine d ++ "\n")
    "// config.h - Generated by EX-Installer\n\n"

/-- C9.  Every output starts with the port define and the scroll-mode
define before the motor-driver define; and with wireless disabled the
define list contains the port, scroll and motor-driver defines and none of
the wireless defines. -/
theorem c9_commandstation_generator (o : CommandStationConfigOptions) :
    (∃ rest, generateCommandStationConfigDefines o =
      ⟨"IP_PORT", "2560"⟩ :: ⟨"SCROLLMODE", "1"⟩ ::
      ⟨"MOTOR_SHIELD_TYPE", o.motorDriver⟩ :: rest) ∧
    (o.enableWifi = false →
      ("IP_PORT" ∈ (generateCommandStationConfigDefines o).map CDefine.name ∧
       "SCROLLMODE" ∈ (generateCommandStationConfigDefines o).map CDefine.name ∧
       "MOTOR_SHIELD_TYPE" ∈
         (generateCommandStationConfigDefines o).map CDefine.name) ∧
      ("WIFI_HOSTNAME" ∉ (generateCommandStationConfigDefines o).map CDefine.name ∧
       "ENABLE_WIFI" ∉ (generateCommandStationConfigDefines o).map CDefine.name ∧
       "WIFI_SSID" ∉ (generateCommandStationConfigDefines o).map CDefine.name ∧
       "WIFI_PASSWORD" ∉ (generateCommandStationConfigDefines o).map CDefine.name ∧
       "WIFI_CHANNEL" ∉ (generateCommandStationConfigDefines o).map CDefine.name)) := by
  constructor
  · exact ⟨_, rfl⟩
  · intro hw
    rcases o with ⟨md, disp, ew, wm, wh, ws, wp, wc, ta, tb, la, lb, ps, de⟩
    simp only at hw
    subst hw
    cases disp <;> cases de <;>
      simp [generateCommandStationConfigDefines, displayDefines, wifiDefines]

/-- Witness for C9 at a concrete wireless-disabled option set. -/
theorem c9_commandstation_generator_witness :
    "WIFI_SSID" ∉ (generateCommandStationConfigDefines
      ⟨"STANDARD_MOTOR_SHIELD", DisplayOption.NONE, false, WifiMode.ap,
       "dccex", "", "", 1, "MAIN", "PROG", 3, 4, false, false⟩).map
        CDefine.name := by
  exact (((c9_commandstation_generator
    ⟨"STANDARD_MOTOR_SHIELD", DisplayOption.NONE, false, WifiMode.ap,
     "dccex", "", "", 1, "MAIN", "PROG", 3, 4, false, false⟩).2 rfl).2).2.2.1

end EXInstaller
